import Mathlib

/-!
Shallow embedding of the mcpfier execution core: the command data model
(internal/config/config.go), the local and container executors
(internal/executor/local.go, container.go), the execution dispatcher
(executor service with analytics recording), the webhook executor's retry
state machine (internal/executor/webhook.go), the permission gate
(internal/auth/auth.go and the HTTP tool-call handler), and the analytics
aggregation queries (internal/analytics/sqlite.go).

Subprocess execution and HTTP transport are modelled as explicit
environment parameters (a runner function for processes, an
attempt-indexed oracle for HTTP attempts); machine integers are Nat/Int
with 64-bit wrap-around made explicit where the Go code can overflow.
-/

/-- WebhookAuth mirrors config.WebhookAuth: authentication data for
webhook calls (yaml fields type/token/key/header/user/pass). -/
structure WebhookAuth where
  type : String
  token : String
  key : String
  header : String
  user : String
  pass : String
deriving DecidableEq

/-- WebhookRetry mirrors config.WebhookRetry: max_retries, backoff kind,
base delay string and optional explicit retryable status-code list.
Go ints are modelled as Int; statusCodes entries as Int. -/
structure WebhookRetry where
  maxRetries : Int
  backoff : String
  delay : String
  statusCodes : List Int
deriving DecidableEq

/-- WebhookConfig mirrors config.WebhookConfig (url, method, headers,
body, body_format, optional auth and retry). Headers are an association
list standing for the Go map. -/
structure WebhookConfig where
  url : String
  method : String
  headers : List (String × String)
  body : String
  bodyFormat : String
  auth : Option WebhookAuth
  retry : Option WebhookRetry
deriving DecidableEq

/-- Command mirrors config.Command: one configured tool. The env map is
modelled as an association list (Go map iteration order is not fixed, but
the entry set is; list order stands in for one iteration order). -/
structure Command where
  name : String
  script : String
  args : List String
  description : String
  container : String
  timeout : String
  env : List (String × String)
  webhook : Option WebhookConfig
deriving DecidableEq

/-- Command.IsContainerized mirrors config.Command.IsContainerized:
true when a container image is set. -/
def Command.IsContainerized (c : Command) : Bool :=
  c.container ≠ ""

/-- Command.IsWebhook mirrors config.Command.IsWebhook: true when the
webhook field is non-nil and its URL is non-empty. -/
def Command.IsWebhook (c : Command) : Bool :=
  match c.webhook with
  | some w => w.url ≠ ""
  | none => false

/-- ProcInvocation is one subprocess invocation as built by the local or
container executor: program, argument vector, and the exec.Cmd.Env field
(none models Go nil Env, meaning the child inherits the ambient process
environment; some e means exactly the entries e). -/
structure ProcInvocation where
  prog : String
  args : List String
  env : Option (List String)
deriving DecidableEq

/-- BackendResult is the (output, error) pair a backend returns; error
none models a nil Go error. -/
structure BackendResult where
  output : String
  err : Option String
deriving DecidableEq

/-- localInvocation mirrors LocalExecutor.Execute's construction of the
exec.Cmd: script and args, with Env built by appending one k=v string per
env entry to the initially nil Env slice (so Env stays nil exactly when
the command has no env entries). -/
def localInvocation (cmd : Command) : ProcInvocation :=
  { prog := cmd.script
    args := cmd.args
    env := if cmd.env = [] then none
           else some (cmd.env.map (fun p => p.1 ++ "=" ++ p.2)) }

/-- dockerInvocation mirrors ContainerExecutor.Execute's docker command
line: run --rm, one -e k=v pair per env entry, the image, then script and
args; exec.Cmd.Env is left nil. -/
def dockerInvocation (cmd : Command) : ProcInvocation :=
  { prog := "docker"
    args := ["run", "--rm"]
            ++ cmd.env.flatMap (fun p => ["-e", p.1 ++ "=" ++ p.2])
            ++ [cmd.container, cmd.script] ++ cmd.args
    env := none }

/-- effectiveEnv gives the environment the spawned child actually sees,
per the os/exec contract: a nil Env means the child uses the current
(ambient) process environment, a non-nil Env is used verbatim. -/
def effectiveEnv (ambient : List String) (inv : ProcInvocation) : List String :=
  match inv.env with
  | none => ambient
  | some e => e

/-- LocalExecutor.Execute mirrors local.go: build the invocation and run
it; the runner parameter stands for the operating system executing a
subprocess and returning its combined output and exit error. -/
def LocalExecutor.Execute (run : ProcInvocation → BackendResult) (cmd : Command) : BackendResult :=
  run (localInvocation cmd)

/-- ContainerExecutor.Execute mirrors container.go: with no image it
falls back to the local executor on the same command, otherwise it runs
the docker invocation. -/
def ContainerExecutor.Execute (run : ProcInvocation → BackendResult) (cmd : Command) : BackendResult :=
  if cmd.container = "" then LocalExecutor.Execute run cmd
  else run (dockerInvocation cmd)

/-- CommandEvent mirrors analytics.CommandEvent (the Error string field
is named errorMessage here, matching the error_message column it is
stored into). duration is the recorded wall-clock delta. -/
structure CommandEvent where
  sessionID : String
  commandName : String
  duration : Nat
  success : Bool
  outputSize : Nat
  executionMode : String
  errorMessage : String
deriving DecidableEq

/-- getExecutionMode mirrors the dispatcher's getExecutionMode:
"container" when the command is containerized, else "local". -/
def getExecutionMode (cmd : Command) : String :=
  if cmd.IsContainerized then "container" else "local"

/-- getErrorString mirrors the dispatcher's getErrorString: empty string
for a nil error, else the error text. -/
def getErrorString : Option String → String
  | none => ""
  | some e => e

/-- DispatchResult is the observable outcome of one dispatcher call: the
returned output and error plus the list of analytics events recorded
during the call. -/
structure DispatchResult where
  output : String
  err : Option String
  events : List CommandEvent
deriving DecidableEq

/-- Service.Execute mirrors the executor service's Execute: pick the
container executor when the command is containerized, else the local
executor, then record exactly one CommandEvent (success = error is nil,
duration = wall-clock elapsed, output size in bytes, execution mode from
getExecutionMode) and return the backend's result unchanged. elapsed is
the wall-clock delta time.Since(start) measured around the backend call. -/
def Service.Execute (run : ProcInvocation → BackendResult) (sessionID : String)
    (elapsed : Nat) (cmd : Command) : DispatchResult :=
  let r := if cmd.IsContainerized then ContainerExecutor.Execute run cmd
           else LocalExecutor.Execute run cmd
  { output := r.output
    err := r.err
    events := [{ sessionID := sessionID
                 commandName := cmd.name
                 duration := elapsed
                 success := r.err.isNone
                 outputSize := r.output.utf8ByteSize
                 executionMode := getExecutionMode cmd
                 errorMessage := getErrorString r.err }] }

/-- Service.ExecuteByName mirrors ExecuteByName: linear search of the
config's command list for the first command with the given name; when
none matches it returns the not-found error and records nothing,
otherwise it executes the found command. -/
def Service.ExecuteByName (run : ProcInvocation → BackendResult) (sessionID : String)
    (elapsed : Nat) (commands : List Command) (commandName : String) : DispatchResult :=
  match commands.find? (fun c => c.name == commandName) with
  | some c => Service.Execute run sessionID elapsed c
  | none => { output := ""
              err := some ("command '" ++ commandName ++ "' not found")
              events := [] }

/-- Backend names the three execution strategies of the spec. -/
inductive Backend where
  | webhook
  | container
  | localProc
deriving DecidableEq

/-- Service.selectedBackend is the branch structure of Service.Execute:
the dispatcher tests only IsContainerized, so it picks the container
executor or the local executor; no branch consults the webhook executor. -/
def Service.selectedBackend (cmd : Command) : Backend :=
  if cmd.IsContainerized then Backend.container else Backend.localProc

/-- AuthContext mirrors auth.AuthContext: the authenticated caller's
identity and permission set. -/
structure AuthContext where
  userID : String
  clientName : String
  permissions : List String
  method : String
deriving DecidableEq

/-- AuthContext.HasPermission mirrors auth.go HasPermission: a nil
receiver has no permission; otherwise the permission list is scanned for
the wildcard or the exact tool name. -/
def AuthContext.HasPermission (a : Option AuthContext) (toolName : String) : Bool :=
  match a with
  | none => false
  | some ac => ac.permissions.any (fun perm => perm == "*" || perm == toolName)

/-- ToolCallResult is the observable outcome of the HTTP tool-call
handler: the MCP text payload, its error flag, whether the dispatcher was
invoked at all, and the analytics events recorded by the dispatcher. -/
structure ToolCallResult where
  text : String
  isError : Bool
  dispatched : Bool
  events : List CommandEvent
deriving DecidableEq

/-- HTTPServer.executeCommand mirrors the HTTP server's executeCommand:
with auth enabled, a missing auth context yields an authentication-required
error result and a failed permission check yields a permission-denied
error result, in both cases without invoking the dispatcher; otherwise
the command is executed by name and its output or failure text returned. -/
def HTTPServer.executeCommand (run : ProcInvocation → BackendResult) (sessionID : String)
    (elapsed : Nat) (authEnabled : Bool) (authCtx : Option AuthContext)
    (commands : List Command) (commandName : String) : ToolCallResult :=
  let dispatch : ToolCallResult :=
    let d := Service.ExecuteByName run sessionID elapsed commands commandName
    match d.err with
    | some e => { text := "Command execution failed: " ++ e ++ "\nOutput: " ++ d.output
                  isError := true, dispatched := true, events := d.events }
    | none => { text := d.output, isError := false, dispatched := true, events := d.events }
  if authEnabled then
    match authCtx with
    | none => { text := "Authentication required", isError := true
                dispatched := false, events := [] }
    | some ac =>
      if AuthContext.HasPermission (some ac) commandName then dispatch
      else { text := "Permission denied for tool '" ++ commandName ++ "'"
             isError := true, dispatched := false, events := [] }
  else dispatch

/-- goToLower models strings.ToLower character by character; the strings
compared in this code are ASCII, where Char.toLower agrees with Go. -/
def goToLower (s : String) : String :=
  String.mk (s.data.map Char.toLower)

/-- wrap64 reduces an integer to the signed 64-bit value Go's int64
arithmetic produces on overflow. -/
def wrap64 (x : Int) : Int :=
  (x + 2 ^ 63) % 2 ^ 64 - 2 ^ 63

/-- goShiftOne is Go's 1 << uint(attempt) evaluated in a 64-bit int. -/
def goShiftOne (attempt : Nat) : Int :=
  wrap64 (2 ^ attempt)

/-- calculateDelay mirrors WebhookExecutor.calculateDelay: exponential is
base times 1 shifted left by the attempt index, linear is base times
attempt+1, fixed is base, and an unknown kind defaults to exponential;
multiplications wrap like Go's int64 time.Duration arithmetic. -/
def calculateDelay (baseDelay : Int) (attempt : Nat) (backoff : String) : Int :=
  let b := goToLower backoff
  if b = "exponential" then wrap64 (baseDelay * goShiftOne attempt)
  else if b = "linear" then wrap64 (baseDelay * (Int.ofNat attempt + 1))
  else if b = "fixed" then baseDelay
  else wrap64 (baseDelay * goShiftOne attempt)

/-- defaultRetryCodes is webhook.go's default retryable status-code set. -/
def defaultRetryCodes : List Int :=
  [429, 502, 503, 504]

/-- shouldRetry mirrors WebhookExecutor.shouldRetry: when a retry config
exists and lists explicit status codes, exactly those are retryable;
otherwise the default codes are. -/
def shouldRetry (statusCode : Int) (rc : Option WebhookRetry) : Bool :=
  match rc with
  | some c =>
    if c.statusCodes.length > 0 then c.statusCodes.contains statusCode
    else defaultRetryCodes.contains statusCode
  | none => defaultRetryCodes.contains statusCode

/-- HTTPResponse is the part of an HTTP response the retry loop and the
webhook executor observe: numeric status code, status text, and body. -/
structure HTTPResponse where
  statusCode : Int
  status : String
  body : String
deriving DecidableEq

/-- AttemptResult is what one client.Do call produces: a transport error
or a response. -/
inductive AttemptResult where
  | transportError (msg : String)
  | response (r : HTTPResponse)
deriving DecidableEq

/-- failMessage is the lastErr text the retry loop stores for a failed
attempt: the transport error text, or the HTTP status formatted as in
webhook.go. -/
def failMessage : AttemptResult → String
  | AttemptResult.transportError e => e
  | AttemptResult.response r => "HTTP " ++ toString r.statusCode ++ ": " ++ r.status

/-- attemptFailsB says whether the retry loop treats an attempt outcome
as a failure to retry: any transport error, or a retryable status. -/
def attemptFailsB (rc : Option WebhookRetry) : AttemptResult → Bool
  | AttemptResult.transportError _ => true
  | AttemptResult.response r => shouldRetry r.statusCode rc

/-- exhaustedMessage is executeWithRetry's terminal error text, wrapping
the last error after maxRetries+1 attempts. -/
def exhaustedMessage (maxRetries : Nat) (lastErr : String) : String :=
  "request failed after " ++ toString (maxRetries + 1) ++ " attempts: " ++ lastErr

deriving instance DecidableEq for Except

/-- RetryOutcome is the observable behaviour of one executeWithRetry run:
its returned response or terminal error, how many attempts were made, and
the sequence of inter-attempt delays slept. -/
structure RetryOutcome where
  result : Except String HTTPResponse
  attemptsMade : Nat
  delays : List Int
deriving DecidableEq

/-- retryAux is the attempt loop of executeWithRetry, indexed by the
current attempt number and the number of attempts still allowed
(remaining = maxRetries + 1 - attempt at every call). An attempt whose
response is not retryable returns that response at once; a failed attempt
stores its error text and, when attempts remain, sleeps
calculateDelay(delay, attempt, backoff) before the next one; when none
remain the loop ends with the exhausted-retries error. doReq is the
transport oracle giving each attempt's outcome. -/
def retryAux (doReq : Nat → AttemptResult) (rc : Option WebhookRetry) (maxRetries : Nat)
    (delayBase : Int) (backoff : String) (attempt : Nat) (lastErr : String) :
    Nat → RetryOutcome
  | 0 => { result := Except.error (exhaustedMessage maxRetries lastErr)
           attemptsMade := 0, delays := [] }
  | remaining + 1 =>
    match doReq attempt with
    | AttemptResult.response r =>
      if shouldRetry r.statusCode rc then
        (if remaining = 0 then
          { result := Except.error (exhaustedMessage maxRetries (failMessage (doReq attempt)))
            attemptsMade := 1, delays := [] }
        else
          let rest := retryAux doReq rc maxRetries delayBase backoff (attempt + 1)
            (failMessage (doReq attempt)) remaining
          { result := rest.result
            attemptsMade := rest.attemptsMade + 1
            delays := calculateDelay delayBase attempt backoff :: rest.delays })
      else { result := Except.ok r, attemptsMade := 1, delays := [] }
    | AttemptResult.transportError _ =>
      if remaining = 0 then
        { result := Except.error (exhaustedMessage maxRetries (failMessage (doReq attempt)))
          attemptsMade := 1, delays := [] }
      else
        let rest := retryAux doReq rc maxRetries delayBase backoff (attempt + 1)
          (failMessage (doReq attempt)) remaining
        { result := rest.result
          attemptsMade := rest.attemptsMade + 1
          delays := calculateDelay delayBase attempt backoff :: rest.delays }

/-- effMaxRetries mirrors executeWithRetry's parameter resolution for
maxRetries: the configured value when positive, else the default 3. -/
def effMaxRetries (rc : Option WebhookRetry) : Nat :=
  match rc with
  | some c => if 0 < c.maxRetries then c.maxRetries.toNat else 3
  | none => 3

/-- effBackoff mirrors executeWithRetry's parameter resolution for the
backoff kind: the configured string when non-empty, else exponential. -/
def effBackoff (rc : Option WebhookRetry) : String :=
  match rc with
  | some c => if c.backoff = "" then "exponential" else c.backoff
  | none => "exponential"

/-- effDelayBase mirrors executeWithRetry's parameter resolution for the
base delay: one second (in nanoseconds) unless the configured delay
string is non-empty and parses as a duration; parseDur stands for
time.ParseDuration, returning nanoseconds on success. -/
def effDelayBase (parseDur : String → Option Int) (rc : Option WebhookRetry) : Int :=
  match rc with
  | some c =>
    if c.delay = "" then 1000000000
    else match parseDur c.delay with
      | some d => d
      | none => 1000000000
  | none => 1000000000

/-- executeWithRetry mirrors WebhookExecutor.executeWithRetry: resolve
maxRetries and backoff, then run attempts 0 .. maxRetries. -/
def executeWithRetry (doReq : Nat → AttemptResult) (rc : Option WebhookRetry)
    (delayBase : Int) : RetryOutcome :=
  retryAux doReq rc (effMaxRetries rc) delayBase (effBackoff rc) 0 ""
    (effMaxRetries rc + 1)

/-- prepareRequestBody mirrors webhook.go prepareRequestBody: json bodies
must pass validation (jsonValid stands for json.Unmarshal succeeding),
xml/text/empty-format/form bodies pass through, and any other format is
an error. -/
def prepareRequestBody (jsonValid : String → Bool) (body format : String) :
    Except String String :=
  let f := goToLower format
  if f = "json" then
    if jsonValid body then Except.ok body else Except.error "invalid JSON"
  else if f = "xml" ∨ f = "text" ∨ f = "" then Except.ok body
  else if f = "form" then Except.ok body
  else Except.error ("unsupported body format: " ++ format)

/-- setAuthentication mirrors webhook.go setAuthentication, reduced to
its error behaviour (header writes carry no further observable state
here): nil auth passes; bearer needs a token, api_key a key, basic a user
and password; oauth and unknown types are errors. -/
def setAuthentication (auth : Option WebhookAuth) : Option String :=
  match auth with
  | none => none
  | some a =>
    let t := goToLower a.type
    if t = "bearer" then
      if a.token = "" then some "bearer token is required" else none
    else if t = "api_key" then
      if a.key = "" then some "API key is required" else none
    else if t = "basic" then
      if a.user = "" ∨ a.pass = "" then
        some "username and password are required for basic auth"
      else none
    else if t = "oauth" then some "OAuth authentication not yet implemented"
    else some ("unsupported authentication type: " ++ a.type)

/-- bodyPrep is WebhookExecutor.Execute's body step: nothing to do for an
empty body, otherwise the prepared-body error wrapped as in Execute. -/
def bodyPrep (jsonValid : String → Bool) (w : WebhookConfig) : Option String :=
  if w.body = "" then none
  else match prepareRequestBody jsonValid w.body w.bodyFormat with
    | Except.ok _ => none
    | Except.error e => some ("failed to prepare request body: " ++ e)

/-- WebhookExecutor.Execute mirrors webhook.go Execute's observable
result: nil webhook config is an error; a body-preparation or
authentication failure returns before any network attempt; otherwise the
retry loop runs, a terminal error is wrapped as request failed, and a
returned response yields its body, paired with an HTTP-status error when
the status is at least 400. Header assembly and the client-timeout
override do not affect these observables and are not repeated here. -/
def WebhookExecutor.Execute (jsonValid : String → Bool) (parseDur : String → Option Int)
    (doReq : Nat → AttemptResult) (cmd : Command) : BackendResult :=
  match cmd.webhook with
  | none => { output := "", err := some "webhook configuration is nil" }
  | some w =>
    match bodyPrep jsonValid w with
    | some e => { output := "", err := some e }
    | none =>
      match setAuthentication w.auth with
      | some e => { output := "", err := some ("failed to set authentication: " ++ e) }
      | none =>
        match (executeWithRetry doReq w.retry (effDelayBase parseDur w.retry)).result with
        | Except.error e => { output := "", err := some ("request failed: " ++ e) }
        | Except.ok resp =>
          if 400 ≤ resp.statusCode then
            { output := resp.body
              err := some ("HTTP " ++ toString resp.statusCode ++ ": " ++ resp.status) }
          else { output := resp.body, err := none }

/-- StoredEvent is one row of the analytics events table: the insert
timestamp (seconds) plus the recorded CommandEvent fields. -/
structure StoredEvent where
  timestamp : Int
  event : CommandEvent
deriving DecidableEq

/-- inWindow is the SQL lookback filter timestamp greater than now minus
the given number of days. -/
def inWindow (now days : Int) (r : StoredEvent) : Bool :=
  now - days * 86400 < r.timestamp

/-- inLastDay is the SQL filter timestamp greater than now minus one day. -/
def inLastDay (now : Int) (r : StoredEvent) : Bool :=
  now - 86400 < r.timestamp

/-- sqlAvg is SQL AVG with COALESCE to zero on an empty selection. -/
def sqlAvg (xs : List ℚ) : ℚ :=
  if xs.length = 0 then 0 else xs.sum / xs.length

/-- successIndicators is the CASE WHEN success THEN 1.0 ELSE 0.0 column. -/
def successIndicators (rows : List CommandEvent) : List ℚ :=
  rows.map (fun e => if e.success then 1 else 0)

/-- CommandSummary mirrors analytics.CommandSummary (and the
field-identical WebhookSummary): one GROUP BY command_name bucket. -/
structure CommandSummary where
  name : String
  count : Nat
  successRate : ℚ
  avgDuration : Int

/-- namesOf lists the distinct command names of a selection in first
occurrence order, modelling the GROUP BY buckets. -/
def namesOf (rows : List CommandEvent) : List String :=
  rows.foldl (fun acc e => if acc.contains e.commandName then acc
                           else acc ++ [e.commandName]) []

/-- rowsFor is one GROUP BY bucket: the rows with the given name. -/
def rowsFor (rows : List CommandEvent) (n : String) : List CommandEvent :=
  rows.filter (fun e => e.commandName == n)

/-- summaryFor computes one bucket's aggregate columns: count, success
rate percentage, and the average duration truncated to an integer as by
Go's float-to-int64 conversion. -/
def summaryFor (rows : List CommandEvent) (n : String) : CommandSummary :=
  let g := rowsFor rows n
  { name := n
    count := g.length
    successRate := 100 * sqlAvg (successIndicators g)
    avgDuration := (sqlAvg (g.map (fun e => (e.duration : ℚ)))).floor }

/-- groupByName is the grouped result set before ordering. -/
def groupByName (rows : List CommandEvent) : List CommandSummary :=
  (namesOf rows).map (summaryFor rows)

/-- insertByCount inserts one summary into a count-descending list,
keeping it sorted; together with sortByCountDesc it models ORDER BY count
DESC with a deterministic tie order. -/
def insertByCount (c : CommandSummary) : List CommandSummary → List CommandSummary
  | [] => [c]
  | x :: xs => if x.count < c.count then c :: x :: xs else x :: insertByCount c xs

/-- sortByCountDesc sorts summaries by count descending. -/
def sortByCountDesc : List CommandSummary → List CommandSummary
  | [] => []
  | x :: xs => insertByCount x (sortByCountDesc xs)

/-- UsageStats mirrors analytics.UsageStats. -/
structure UsageStats where
  totalCommands : Nat
  successRate : ℚ
  topCommands : List CommandSummary
  errorsLast24h : Nat
  avgDurationMs : Int

/-- GetStats mirrors SQLiteAnalytics.GetStats over the events table: the
lookback window selects the rows, the main query computes total count,
success rate percentage, truncated average duration and the last-24-hours
error count, and the top-commands query groups by name, orders by count
descending and keeps ten rows. -/
def GetStats (now days : Int) (rows : List StoredEvent) : UsageStats :=
  let w := (rows.filter (inWindow now days)).map StoredEvent.event
  { totalCommands := w.length
    successRate := 100 * sqlAvg (successIndicators w)
    topCommands := (sortByCountDesc (groupByName w)).take 10
    errorsLast24h := (rows.filter
      (fun r => inWindow now days r && inLastDay now r && !r.event.success)).length
    avgDurationMs := (sqlAvg (w.map (fun e => (e.duration : ℚ)))).floor }

/-- WebhookStats mirrors analytics.WebhookStats for the fields the claims
touch; the error-text bucket breakdown is a further query over the same
webhook-mode selection and is not repeated here. -/
structure WebhookStats where
  totalCalls : Nat
  successRate : ℚ
  avgLatencyMs : Int
  errorsLast24h : Nat
  topWebhooks : List CommandSummary

/-- isWebhookModeRow is GetWebhookStats's AND execution_mode equals
webhook filter. -/
def isWebhookModeRow (r : StoredEvent) : Bool :=
  r.event.executionMode == "webhook"

/-- GetWebhookStats mirrors SQLiteAnalytics.GetWebhookStats: the same
aggregates as GetStats but restricted to rows whose execution_mode column
is webhook. -/
def GetWebhookStats (now days : Int) (rows : List StoredEvent) : WebhookStats :=
  let w := (rows.filter (fun r => inWindow now days r && isWebhookModeRow r)).map
    StoredEvent.event
  { totalCalls := w.length
    successRate := 100 * sqlAvg (successIndicators w)
    avgLatencyMs := (sqlAvg (w.map (fun e => (e.duration : ℚ)))).floor
    errorsLast24h := (rows.filter
      (fun r => inWindow now days r && isWebhookModeRow r && inLastDay now r
        && !r.event.success)).length
    topWebhooks := (sortByCountDesc (groupByName w)).take 10 }

/-- effRetryCodes names the retryable status set the retry predicate
consults: the explicitly configured codes when that list is non-empty,
else the default codes. -/
def effRetryCodes (rc : Option WebhookRetry) : List Int :=
  match rc with
  | some c => if c.statusCodes.length > 0 then c.statusCodes else defaultRetryCodes
  | none => defaultRetryCodes

/-- run0 is a runner under which every subprocess returns empty output
and a nil error. -/
def run0 : ProcInvocation → BackendResult :=
  fun _ => { output := "", err := none }

/-- whCfg503 is a concrete webhook configuration: a plain GET with no
body, no auth and no retry policy. -/
def whCfg503 : WebhookConfig :=
  { url := "http://upstream.example/hook", method := "", headers := []
    body := "", bodyFormat := "", auth := none, retry := none }

/-- cmdWebhookOnly is a command whose webhook spec is set and whose
container image is empty. -/
def cmdWebhookOnly : Command :=
  { name := "call-upstream", script := "", args := [], description := ""
    container := "", timeout := "", env := [], webhook := some whCfg503 }

/-- cmdLocal0 is a plain local command with no env entries. -/
def cmdLocal0 : Command :=
  { name := "echo-test", script := "echo", args := ["hi"], description := ""
    container := "", timeout := "", env := [], webhook := none }

/-- cmdEnvFoo is a local command that defines one environment variable. -/
def cmdEnvFoo : Command :=
  { name := "env-test", script := "printenv", args := [], description := ""
    container := "", timeout := "", env := [("FOO", "bar")], webhook := none }

/-- resp503 is a retryable 503 response carrying a diagnostic body. -/
def resp503 : HTTPResponse :=
  { statusCode := 503, status := "503 Service Unavailable", body := "upstream oops" }

/-- resp200 is a success response. -/
def resp200 : HTTPResponse :=
  { statusCode := 200, status := "200 OK", body := "hi" }

/-- doReqAll503 is a transport under which every attempt returns 503. -/
def doReqAll503 : Nat → AttemptResult :=
  fun _ => AttemptResult.response resp503

/-- doReqFailTwice fails the first two attempts with 503 and then
returns 200. -/
def doReqFailTwice : Nat → AttemptResult :=
  fun i => if i < 2 then AttemptResult.response resp503 else AttemptResult.response resp200

/-- jsonValidTrue stands for a json.Unmarshal that accepts the body. -/
def jsonValidTrue : String → Bool :=
  fun _ => true

/-- parseDurNone stands for a time.ParseDuration that accepts nothing,
so every resolved delay keeps its default. -/
def parseDurNone : String → Option Int :=
  fun _ => none

/-- ac0 is an authenticated caller whose permission set is exactly
the echo-test tool. -/
def ac0 : AuthContext :=
  { userID := "test-key", clientName := "test-key"
    permissions := ["echo-test"], method := "api_key" }

/-- acStar is an authenticated caller holding the wildcard permission. -/
def acStar : AuthContext :=
  { userID := "admin-key", clientName := "admin-key"
    permissions := ["*"], method := "api_key" }

/-- ev8 is the event Service.Execute records for cmdLocal0 under run0
with session s and elapsed 5. -/
def ev8 : CommandEvent :=
  { sessionID := "s", commandName := "echo-test", duration := 5, success := true
    outputSize := 0, executionMode := "local", errorMessage := "" }

/-- rows8 is an events table holding only dispatcher-recorded rows. -/
def rows8 : List StoredEvent :=
  [{ timestamp := 50, event := ev8 }]

/-- evA1, evA2 and evB are three analytics rows: two for command alpha
(one success, one failure) and one success for command beta. -/
def evA1 : CommandEvent :=
  { sessionID := "s", commandName := "alpha", duration := 10, success := true
    outputSize := 1, executionMode := "local", errorMessage := "" }

/-- evA2 is alpha's failing row. -/
def evA2 : CommandEvent :=
  { sessionID := "s", commandName := "alpha", duration := 30, success := false
    outputSize := 0, executionMode := "local", errorMessage := "exit status 1" }

/-- evB is beta's succeeding row. -/
def evB : CommandEvent :=
  { sessionID := "s", commandName := "beta", duration := 20, success := true
    outputSize := 2, executionMode := "container", errorMessage := "" }

/-- rows10 is a concrete events table with three in-window rows. -/
def rows10 : List StoredEvent :=
  [{ timestamp := 90, event := evA1 }, { timestamp := 91, event := evA2 },
   { timestamp := 92, event := evB }]

/-- Claim C1 (amended): the dispatcher's Execute selects exactly one
backend, deterministically, but the choice is only between the container
backend (when an image is set) and the local backend (otherwise); the
webhook backend is never selected, whatever the WebhookSpec. -/
theorem dispatcher_selects_container_else_local (run : ProcInvocation → BackendResult)
    (sid : String) (elapsed : Nat) (cmd : Command) :
    ((Service.Execute run sid elapsed cmd).output, (Service.Execute run sid elapsed cmd).err) =
      (match Service.selectedBackend cmd with
        | Backend.container =>
          ((ContainerExecutor.Execute run cmd).output, (ContainerExecutor.Execute run cmd).err)
        | _ => ((LocalExecutor.Execute run cmd).output, (LocalExecutor.Execute run cmd).err)) ∧
    (Service.selectedBackend cmd = Backend.container ↔ cmd.IsContainerized = true) ∧
    (Service.selectedBackend cmd = Backend.localProc ↔ cmd.IsContainerized = false) ∧
    Service.selectedBackend cmd ≠ Backend.webhook := by
  cases h : cmd.IsContainerized <;>
    simp [Service.Execute, Service.selectedBackend, h]

/-- Claim C1 counterexample: a command whose WebhookSpec is set (and with
no container image) is dispatched to the local backend, not the webhook
backend, refuting webhook-first selection. -/
theorem webhook_command_not_selected :
    cmdWebhookOnly.IsWebhook = true ∧
    Service.selectedBackend cmdWebhookOnly ≠ Backend.webhook ∧
    Service.selectedBackend cmdWebhookOnly = Backend.localProc := by
  decide

/-- Claim C7: evaluating the local executor's environment construction on
a command with one env entry shows the child environment is exactly the
command's entries — the ambient environment is dropped, while a command
with no env entries inherits the ambient environment untouched. -/
theorem local_env_replaces_ambient :
    effectiveEnv ["PATH=/usr/bin"] (localInvocation cmdEnvFoo) = ["FOO=bar"] ∧
    "PATH=/usr/bin" ∉ effectiveEnv ["PATH=/usr/bin"] (localInvocation cmdEnvFoo) ∧
    effectiveEnv ["PATH=/usr/bin"] (localInvocation cmdLocal0) = ["PATH=/usr/bin"] := by
  decide

/-- Claim C9: a command with no container image produces, through the
container backend, exactly the same output and error as through the local
backend, under every runner. -/
theorem container_fallback_verbatim (run : ProcInvocation → BackendResult) (cmd : Command)
    (h : cmd.container = "") :
    ContainerExecutor.Execute run cmd = LocalExecutor.Execute run cmd := by
  simp [ContainerExecutor.Execute, h]

/-- Claim C9 witness: the fallback equality at a concrete command and
runner. -/
theorem container_fallback_verbatim_witness :
    ContainerExecutor.Execute run0 cmdLocal0 = LocalExecutor.Execute run0 cmdLocal0 :=
  container_fallback_verbatim run0 cmdLocal0 (by decide)

/-- HasPermission of an authenticated caller holds exactly when the
permission list holds the wildcard or the exact tool name. -/
theorem hasPermission_iff (ac : AuthContext) (tool : String) :
    AuthContext.HasPermission (some ac) tool = true ↔
      "*" ∈ ac.permissions ∨ tool ∈ ac.permissions := by
  simp only [AuthContext.HasPermission, List.any_eq_true, Bool.or_eq_true, beq_iff_eq]
  constructor
  · rintro ⟨x, hx, rfl | rfl⟩
    · exact Or.inl hx
    · exact Or.inr hx
  · rintro (h | h)
    · exact ⟨"*", h, Or.inl rfl⟩
    · exact ⟨tool, h, Or.inr rfl⟩

/-- Claim C4: for an authenticated caller, a tool call reaches the
dispatcher exactly when the permission set holds the wildcard or the
exact tool name; otherwise a permission-denied error result is returned,
no event is recorded and the dispatcher is never invoked. -/
theorem permission_gate (run : ProcInvocation → BackendResult) (sid : String)
    (elapsed : Nat) (ac : AuthContext) (commands : List Command) (tool : String) :
    ((HTTPServer.executeCommand run sid elapsed true (some ac) commands tool).dispatched = true ↔
      ("*" ∈ ac.permissions ∨ tool ∈ ac.permissions)) ∧
    (("*" ∉ ac.permissions ∧ tool ∉ ac.permissions) →
      (HTTPServer.executeCommand run sid elapsed true (some ac) commands tool).text =
        "Permission denied for tool '" ++ tool ++ "'" ∧
      (HTTPServer.executeCommand run sid elapsed true (some ac) commands tool).isError = true ∧
      (HTTPServer.executeCommand run sid elapsed true (some ac) commands tool).events = []) := by
  by_cases hp : AuthContext.HasPermission (some ac) tool = true
  · have hmem := (hasPermission_iff ac tool).mp hp
    refine ⟨⟨fun _ => hmem, fun _ => ?_⟩, fun hno => ?_⟩
    · simp only [HTTPServer.executeCommand, hp, if_true]
      cases hres : (Service.ExecuteByName run sid elapsed commands tool).err <;>
        simp [hres]
    · rcases hmem with h | h
      · exact absurd h hno.1
      · exact absurd h hno.2
  · have hmem : ¬("*" ∈ ac.permissions ∨ tool ∈ ac.permissions) :=
      fun h => hp ((hasPermission_iff ac tool).mpr h)
    have hpf : AuthContext.HasPermission (some ac) tool = false := by
      cases hq : AuthContext.HasPermission (some ac) tool
      · rfl
      · exact absurd hq hp
    refine ⟨?_, fun _ => ?_⟩
    · simp [HTTPServer.executeCommand, hpf, hmem]
    · simp [HTTPServer.executeCommand, hpf]

/-- Claim C4 witness: the echo-test-only key is denied for list-files
(with the permission-denied text and nothing dispatched), allowed for
echo-test, and a wildcard key is allowed for an arbitrary tool name. -/
theorem permission_gate_witness :
    (HTTPServer.executeCommand run0 "s" 5 true (some ac0) [] "list-files").dispatched = false ∧
    (HTTPServer.executeCommand run0 "s" 5 true (some ac0) [] "list-files").text =
      "Permission denied for tool 'list-files'" ∧
    (HTTPServer.executeCommand run0 "s" 5 true (some ac0) [cmdLocal0] "echo-test").dispatched = true ∧
    (HTTPServer.executeCommand run0 "s" 5 true (some acStar) [] "list-files").dispatched = true := by
  have h1 := permission_gate run0 "s" 5 ac0 [] "list-files"
  have h2 := permission_gate run0 "s" 5 ac0 [cmdLocal0] "echo-test"
  have h3 := permission_gate run0 "s" 5 acStar [] "list-files"
  refine ⟨?_, ?_, ?_, ?_⟩
  · exact Bool.eq_false_iff.mpr
      (fun hd => (by decide : ¬("*" ∈ ac0.permissions ∨ "list-files" ∈ ac0.permissions))
        (h1.1.mp hd))
  · exact ((h1.2 (by decide)).1).trans (by decide)
  · exact h2.1.mpr (Or.inr (by decide))
  · exact h3.1.mpr (Or.inl (by decide))

/-- Claim C5: every dispatcher Execute records exactly one CommandEvent,
with success equal to the error being nil, the recorded duration equal to
the measured wall-clock delta, the selected backend kind and the output's
byte size, and returns the backend's output and error unchanged; and
ExecuteByName on a name no configured command bears returns the
command-not-found error with no event recorded. -/
theorem dispatcher_records_one_event (run : ProcInvocation → BackendResult) (sid : String)
    (elapsed : Nat) (cmd : Command) :
    (Service.Execute run sid elapsed cmd).events =
      [{ sessionID := sid, commandName := cmd.name, duration := elapsed
         success := (Service.Execute run sid elapsed cmd).err.isNone
         outputSize := (Service.Execute run sid elapsed cmd).output.utf8ByteSize
         executionMode := getExecutionMode cmd
         errorMessage := getErrorString (Service.Execute run sid elapsed cmd).err }] ∧
    ((Service.Execute run sid elapsed cmd).output, (Service.Execute run sid elapsed cmd).err) =
      ((if cmd.IsContainerized then ContainerExecutor.Execute run cmd
        else LocalExecutor.Execute run cmd).output,
       (if cmd.IsContainerized then ContainerExecutor.Execute run cmd
        else LocalExecutor.Execute run cmd).err) ∧
    (∀ (commands : List Command) (name : String),
      (∀ c ∈ commands, c.name ≠ name) →
      Service.ExecuteByName run sid elapsed commands name =
        { output := "", err := some ("command '" ++ name ++ "' not found"), events := [] }) := by
  refine ⟨?_, ?_, ?_⟩
  · simp [Service.Execute]
  · simp [Service.Execute]
  · intro commands name h
    have hfind : commands.find? (fun c => c.name == name) = none := by
      apply List.find?_eq_none.mpr
      intro c hc
      simpa using h c hc
    simp [Service.ExecuteByName, hfind]

/-- Prepending the image of zero to a shifted range map gives the map
over the extended range. -/
theorem range_map_shift {α : Type} (f : Nat → α) (r : Nat) :
    f 0 :: (List.range r).map (fun k => f (k + 1)) = (List.range (r + 1)).map f := by
  rw [List.range_succ_eq_map, List.map_cons, List.map_map]
  rfl

set_option maxRecDepth 4000 in
/-- With every attempt failing retryably, the retry loop from any state
makes exactly the allowed number of attempts, sleeps the computed delay
after each attempt but the last, and ends with the exhausted-retries
error naming the final attempt's failure. -/
theorem retryAux_allFail (doReq : Nat → AttemptResult) (rc : Option WebhookRetry)
    (maxR : Nat) (base : Int) (backoff : String)
    (hfail : ∀ i, attemptFailsB rc (doReq i) = true) :
    ∀ (remaining attempt : Nat) (lastErr : String),
      retryAux doReq rc maxR base backoff attempt lastErr (remaining + 1) =
        { result := Except.error
            (exhaustedMessage maxR (failMessage (doReq (attempt + remaining))))
          attemptsMade := remaining + 1
          delays := (List.range remaining).map
            (fun k => calculateDelay base (attempt + k) backoff) } := by
  intro remaining
  induction remaining with
  | zero =>
    intro attempt lastErr
    cases hreq : doReq attempt with
    | response rr =>
      have hs : shouldRetry rr.statusCode rc = true := by
        have h := hfail attempt
        rw [hreq] at h
        simpa [attemptFailsB] using h
      simp [retryAux, hreq, hs]
    | transportError e =>
      simp [retryAux, hreq]
  | succ r ih =>
    intro attempt lastErr
    have harith : attempt + 1 + r = attempt + (r + 1) := by omega
    have hrest := ih (attempt + 1) (failMessage (doReq attempt))
    rw [harith] at hrest
    cases hreq : doReq attempt with
    | response rr =>
      have hs : shouldRetry rr.statusCode rc = true := by
        have h := hfail attempt
        rw [hreq] at h
        simpa [attemptFailsB] using h
      rw [hreq] at hrest
      rw [retryAux]
      simp only [hreq, hs, if_true, Nat.succ_ne_zero, if_false]
      rw [hrest]
      dsimp only
      rw [RetryOutcome.mk.injEq]
      refine ⟨rfl, rfl, ?_⟩
      have hfun : (fun k => calculateDelay base (attempt + 1 + k) backoff)
          = fun k => calculateDelay base (attempt + (k + 1)) backoff := by
        funext k
        have h2 : attempt + 1 + k = attempt + (k + 1) := by omega
        rw [h2]
      rw [hfun]
      have h0 : calculateDelay base attempt backoff
          = calculateDelay base (attempt + 0) backoff := by rw [Nat.add_zero]
      rw [h0]
      exact range_map_shift (fun k => calculateDelay base (attempt + k) backoff) _
    | transportError e =>
      rw [hreq] at hrest
      rw [retryAux]
      simp only [hreq, Nat.succ_ne_zero, if_false]
      rw [hrest]
      dsimp only
      rw [RetryOutcome.mk.injEq]
      refine ⟨rfl, rfl, ?_⟩
      have hfun : (fun k => calculateDelay base (attempt + 1 + k) backoff)
          = fun k => calculateDelay base (attempt + (k + 1)) backoff := by
        funext k
        have h2 : attempt + 1 + k = attempt + (k + 1) := by omega
        rw [h2]
      rw [hfun]
      have h0 : calculateDelay base attempt backoff
          = calculateDelay base (attempt + 0) backoff := by rw [Nat.add_zero]
      rw [h0]
      exact range_map_shift (fun k => calculateDelay base (attempt + k) backoff) _

set_option maxRecDepth 4000 in
/-- When the attempts before index k fail retryably and attempt k returns
a non-retryable response, the loop returns that response at attempt k,
having made k+1 attempts and slept k delays. -/
theorem retryAux_firstOk (doReq : Nat → AttemptResult) (rc : Option WebhookRetry)
    (maxR : Nat) (base : Int) (backoff : String) :
    ∀ (k remaining attempt : Nat) (lastErr : String) (rr : HTTPResponse),
      k ≤ remaining →
      (∀ j, j < k → attemptFailsB rc (doReq (attempt + j)) = true) →
      doReq (attempt + k) = AttemptResult.response rr →
      shouldRetry rr.statusCode rc = false →
      retryAux doReq rc maxR base backoff attempt lastErr (remaining + 1) =
        { result := Except.ok rr
          attemptsMade := k + 1
          delays := (List.range k).map
            (fun j => calculateDelay base (attempt + j) backoff) } := by
  intro k
  induction k with
  | zero =>
    intro remaining attempt lastErr rr _ _ hk hs
    rw [show attempt + 0 = attempt from rfl] at hk
    simp [retryAux, hk, hs]
  | succ k ih =>
    intro remaining attempt lastErr rr hle hfail hk hs
    obtain ⟨m, rfl⟩ : ∃ m, remaining = m + 1 := by
      cases remaining with
      | zero => omega
      | succ m => exact ⟨m, rfl⟩
    have hfail0 : attemptFailsB rc (doReq attempt) = true := by
      have h := hfail 0 (Nat.succ_pos k)
      simpa using h
    have hrest := ih m (attempt + 1) (failMessage (doReq attempt)) rr (by omega)
      (fun j hj => by
        have h := hfail (j + 1) (by omega)
        have e : attempt + (j + 1) = attempt + 1 + j := by omega
        rwa [e] at h)
      (by
        have e : attempt + (k + 1) = attempt + 1 + k := by omega
        rwa [e] at hk) hs
    cases hreq : doReq attempt with
    | response rr0 =>
      have hs0 : shouldRetry rr0.statusCode rc = true := by
        rw [hreq] at hfail0
        simpa [attemptFailsB] using hfail0
      rw [hreq] at hrest
      rw [retryAux]
      simp only [hreq, hs0, if_true, Nat.succ_ne_zero, if_false]
      rw [hrest]
      dsimp only
      rw [RetryOutcome.mk.injEq]
      refine ⟨rfl, rfl, ?_⟩
      have hfun : (fun k => calculateDelay base (attempt + 1 + k) backoff)
          = fun k => calculateDelay base (attempt + (k + 1)) backoff := by
        funext k
        have h2 : attempt + 1 + k = attempt + (k + 1) := by omega
        rw [h2]
      rw [hfun]
      have h0 : calculateDelay base attempt backoff
          = calculateDelay base (attempt + 0) backoff := by rw [Nat.add_zero]
      rw [h0]
      exact range_map_shift (fun k => calculateDelay base (attempt + k) backoff) _
    | transportError e =>
      rw [hreq] at hrest
      rw [retryAux]
      simp only [hreq, Nat.succ_ne_zero, if_false]
      rw [hrest]
      dsimp only
      rw [RetryOutcome.mk.injEq]
      refine ⟨rfl, rfl, ?_⟩
      have hfun : (fun k => calculateDelay base (attempt + 1 + k) backoff)
          = fun k => calculateDelay base (attempt + (k + 1)) backoff := by
        funext k
        have h2 : attempt + 1 + k = attempt + (k + 1) := by omega
        rw [h2]
      rw [hfun]
      have h0 : calculateDelay base attempt backoff
          = calculateDelay base (attempt + 0) backoff := by rw [Nat.add_zero]
      rw [h0]
      exact range_map_shift (fun k => calculateDelay base (attempt + k) backoff) _

/-- wrap64 is the identity on values already in signed 64-bit range. -/
theorem wrap64_eq_self (x : Int) (h0 : 0 ≤ x) (h1 : x < 2 ^ 63) : wrap64 x = x := by
  have hsum : (2 : Int) ^ 64 = 2 ^ 63 + 2 ^ 63 := by norm_num
  have hpos : (0 : Int) ≤ 2 ^ 63 := by norm_num
  have h : (x + 2 ^ 63) % 2 ^ 64 = x + 2 ^ 63 :=
    Int.emod_eq_of_lt (by linarith) (by linarith)
  unfold wrap64
  rw [h]
  ring

/-- Claim C2: with every attempt failing retryably the retry loop makes
exactly effMaxRetries+1 attempts (4 by default), the delay slept after
attempt number a is calculateDelay(base, a, backoff) and none follows the
final attempt, and calculateDelay equals base times 2 to the attempt for
exponential, base times attempt+1 for linear and base for fixed wherever
Go's int64 arithmetic does not overflow. -/
theorem webhook_retry_attempt_count_and_backoff (doReq : Nat → AttemptResult)
    (rc : Option WebhookRetry) (base : Int)
    (hfail : ∀ i, attemptFailsB rc (doReq i) = true) :
    (executeWithRetry doReq rc base).attemptsMade = effMaxRetries rc + 1 ∧
    (executeWithRetry doReq rc base).delays =
      (List.range (effMaxRetries rc)).map
        (fun a => calculateDelay base a (effBackoff rc)) ∧
    (executeWithRetry doReq rc base).delays.length = effMaxRetries rc ∧
    (rc = none → (executeWithRetry doReq rc base).attemptsMade = 4) ∧
    (∀ (b : Int) (a : Nat), 0 ≤ b → b * 2 ^ a < 2 ^ 63 →
      calculateDelay b a "exponential" = b * 2 ^ a) ∧
    (∀ (b : Int) (a : Nat), 0 ≤ b → b * ((a : Int) + 1) < 2 ^ 63 →
      calculateDelay b a "linear" = b * ((a : Int) + 1)) ∧
    (∀ (b : Int) (a : Nat), calculateDelay b a "fixed" = b) := by
  have hall := retryAux_allFail doReq rc (effMaxRetries rc) base (effBackoff rc) hfail
    (effMaxRetries rc) 0 ""
  have hexp : ∀ (bb : Int) (aa : Nat),
      calculateDelay bb aa "exponential" = wrap64 (bb * goShiftOne aa) := by
    intro bb aa
    have h : goToLower "exponential" = "exponential" := by decide
    simp [calculateDelay, h]
  have hlin : ∀ (bb : Int) (aa : Nat),
      calculateDelay bb aa "linear" = wrap64 (bb * (Int.ofNat aa + 1)) := by
    intro bb aa
    have h : goToLower "linear" = "linear" := by decide
    have h1 : ("linear" : String) ≠ "exponential" := by decide
    simp [calculateDelay, h, h1]
  refine ⟨?_, ?_, ?_, ?_, ?_, ?_, ?_⟩
  · rw [executeWithRetry, hall]
  · rw [executeWithRetry, hall]
    simp
  · rw [executeWithRetry, hall]
    simp
  · intro h
    subst h
    rw [executeWithRetry, hall]
    rfl
  · intro b a hb hlt
    rcases eq_or_lt_of_le hb with hb0 | hbpos
    · rw [hexp, ← hb0]
      norm_num [wrap64]
    · have hb1 : 1 ≤ b := hbpos
      have h2nn : (0 : Int) ≤ 2 ^ a := pow_nonneg (by norm_num) a
      have h2a : (2 : Int) ^ a < 2 ^ 63 := by nlinarith
      have hg : goShiftOne a = 2 ^ a := wrap64_eq_self _ h2nn h2a
      rw [hexp, hg]
      exact wrap64_eq_self _ (mul_nonneg hb (by norm_num [h2nn])) hlt
  · intro b a hb hlt
    have hnn : (0 : Int) ≤ (a : Int) + 1 := by positivity
    rw [hlin]
    exact wrap64_eq_self _ (mul_nonneg hb hnn) hlt
  · intro b a
    have h : goToLower "fixed" = "fixed" := by decide
    have h1 : ("fixed" : String) ≠ "exponential" := by decide
    have h2 : ("fixed" : String) ≠ "linear" := by decide
    simp [calculateDelay, h, h1, h2]

/-- Claim C2 witness: with a default retry policy, a transport answering
503 forever and base delay 7, the loop makes 4 attempts and sleeps
7, 14, 28 (exponential doubling, none after the final attempt). -/
theorem webhook_retry_attempt_count_and_backoff_witness :
    (executeWithRetry doReqAll503 none 7).attemptsMade = 4 ∧
    (executeWithRetry doReqAll503 none 7).delays = [7, 14, 28] := by
  have h := webhook_retry_attempt_count_and_backoff doReqAll503 none 7
    (fun _ => (by decide : attemptFailsB none (AttemptResult.response resp503) = true))
  refine ⟨h.2.2.2.1 rfl, ?_⟩
  rw [h.2.1]
  decide

/-- Claim C6: an attempt is retried exactly when the transport call
errors or the status is in the effective retryable set (the configured
codes when non-empty, else the defaults), and the loop terminates and
returns the response at the first attempt whose status is not retryable. -/
theorem webhook_retry_predicate_and_first_success :
    (∀ (sc : Int) (rc : Option WebhookRetry),
      shouldRetry sc rc = true ↔ sc ∈ effRetryCodes rc) ∧
    (∀ (rc : Option WebhookRetry) (e : String),
      attemptFailsB rc (AttemptResult.transportError e) = true) ∧
    (∀ (rc : Option WebhookRetry) (rr : HTTPResponse),
      attemptFailsB rc (AttemptResult.response rr) = shouldRetry rr.statusCode rc) ∧
    (∀ (doReq : Nat → AttemptResult) (rc : Option WebhookRetry) (base : Int)
      (k : Nat) (rr : HTTPResponse),
      (∀ j, j < k → attemptFailsB rc (doReq j) = true) →
      doReq k = AttemptResult.response rr →
      shouldRetry rr.statusCode rc = false →
      k ≤ effMaxRetries rc →
      (executeWithRetry doReq rc base).result = Except.ok rr ∧
      (executeWithRetry doReq rc base).attemptsMade = k + 1) := by
  refine ⟨?_, ?_, ?_, ?_⟩
  · intro sc rc
    cases rc with
    | none => simp [shouldRetry, effRetryCodes, List.contains]
    | some c =>
      by_cases h : c.statusCodes.length > 0 <;>
        simp [shouldRetry, effRetryCodes, h, List.contains]
  · intro rc e
    rfl
  · intro rc rr
    rfl
  · intro doReq rc base k rr hfail hk hs hle
    have h := retryAux_firstOk doReq rc (effMaxRetries rc) base (effBackoff rc) k
      (effMaxRetries rc) 0 "" rr hle (fun j hj => by simpa using hfail j hj)
      (by simpa using hk) hs
    constructor
    · rw [executeWithRetry, h]
    · rw [executeWithRetry, h]

/-- Claim C6 witness: a transport failing twice with 503 and then
answering 200 yields exactly 3 attempts and returns the 200 response. -/
theorem webhook_retry_first_success_witness :
    (executeWithRetry doReqFailTwice none 7).result = Except.ok resp200 ∧
    (executeWithRetry doReqFailTwice none 7).attemptsMade = 3 :=
  webhook_retry_predicate_and_first_success.2.2.2 doReqFailTwice none 7 2 resp200
    (by decide) (by decide) (by decide) (by decide)

/-- Claim C3 counterexample: every attempt returns 503 carrying a
non-empty body, yet on retry exhaustion Execute returns empty output —
the last response body is discarded rather than returned as diagnostic
text. -/
theorem webhook_exhaustion_discards_body :
    WebhookExecutor.Execute jsonValidTrue parseDurNone doReqAll503 cmdWebhookOnly =
      { output := ""
        err := some "request failed: request failed after 4 attempts: HTTP 503: 503 Service Unavailable" } ∧
    resp503.body = "upstream oops" ∧
    (WebhookExecutor.Execute jsonValidTrue parseDurNone doReqAll503 cmdWebhookOnly).output
      ≠ resp503.body := by
  decide

/-- Claim C3 (amended): when every attempt fails retryably and retries
are exhausted, the webhook backend's Execute returns the last transport
error or an error encoding the last HTTP status — wrapped as a request
failure — but with empty output: the last response body is discarded. A
response body is returned together with the status error only when the
loop terminates with a response whose status is not retryable, including
non-retryable statuses of at least 400. -/
theorem webhook_exhaustion_error_result (jsonValid : String → Bool)
    (parseDur : String → Option Int) (cmd : Command) (w : WebhookConfig)
    (hw : cmd.webhook = some w) (hb : bodyPrep jsonValid w = none)
    (ha : setAuthentication w.auth = none) :
    (∀ doReq : Nat → AttemptResult,
      (∀ i, attemptFailsB w.retry (doReq i) = true) →
      WebhookExecutor.Execute jsonValid parseDur doReq cmd =
        { output := ""
          err := some ("request failed: " ++ exhaustedMessage (effMaxRetries w.retry)
            (failMessage (doReq (effMaxRetries w.retry)))) }) ∧
    (∀ (doReq : Nat → AttemptResult) (k : Nat) (rr : HTTPResponse),
      (∀ j, j < k → attemptFailsB w.retry (doReq j) = true) →
      doReq k = AttemptResult.response rr →
      shouldRetry rr.statusCode w.retry = false →
      k ≤ effMaxRetries w.retry →
      400 ≤ rr.statusCode →
      WebhookExecutor.Execute jsonValid parseDur doReq cmd =
        { output := rr.body
          err := some ("HTTP " ++ toString rr.statusCode ++ ": " ++ rr.status) }) := by
  constructor
  · intro doReq hfail
    have h := retryAux_allFail doReq w.retry (effMaxRetries w.retry)
      (effDelayBase parseDur w.retry) (effBackoff w.retry) hfail (effMaxRetries w.retry) 0 ""
    simp [WebhookExecutor.Execute, hw, hb, ha, executeWithRetry, h]
  · intro doReq k rr hfail hk hs hle h400
    have h := retryAux_firstOk doReq w.retry (effMaxRetries w.retry)
      (effDelayBase parseDur w.retry) (effBackoff w.retry) k (effMaxRetries w.retry) 0 "" rr
      hle (fun j hj => by simpa using hfail j hj) (by simpa using hk) hs
    simp [WebhookExecutor.Execute, hw, hb, ha, executeWithRetry, h, h400]

/-- Claim C3 witness: the exhaustion shape at a concrete webhook command
and an always-503 transport. -/
theorem webhook_exhaustion_error_result_witness :
    WebhookExecutor.Execute jsonValidTrue parseDurNone doReqAll503 cmdWebhookOnly =
      { output := ""
        err := some ("request failed: " ++ exhaustedMessage (effMaxRetries whCfg503.retry)
          (failMessage (doReqAll503 (effMaxRetries whCfg503.retry)))) } :=
  (webhook_exhaustion_error_result jsonValidTrue parseDurNone cmdWebhookOnly whCfg503
    (by decide) (by decide) (by decide)).1 doReqAll503
    (fun _ => (by decide : attemptFailsB none (AttemptResult.response resp503) = true))

/-- Claim C8: every event the dispatcher's Execute records has execution
mode container or local, never webhook; so the webhook statistics
aggregation, which counts only rows whose execution_mode is webhook,
counts none of the dispatcher's events. -/
theorem dispatcher_events_never_webhook_mode :
    (∀ cmd : Command,
      (getExecutionMode cmd = "container" ∨ getExecutionMode cmd = "local") ∧
      getExecutionMode cmd ≠ "webhook") ∧
    (∀ (now days : Int) (rows : List StoredEvent),
      (∀ r ∈ rows, ∃ (run : ProcInvocation → BackendResult) (sid : String)
        (elapsed : Nat) (cmd : Command),
        r.event ∈ (Service.Execute run sid elapsed cmd).events) →
      (GetWebhookStats now days rows).totalCalls = 0 ∧
      (GetWebhookStats now days rows).topWebhooks = [] ∧
      (GetWebhookStats now days rows).errorsLast24h = 0) := by
  have hmode : ∀ cmd : Command,
      (getExecutionMode cmd = "container" ∨ getExecutionMode cmd = "local") ∧
      getExecutionMode cmd ≠ "webhook" := by
    intro cmd
    unfold getExecutionMode
    by_cases h : cmd.IsContainerized <;> simp [h]
  refine ⟨hmode, ?_⟩
  intro now days rows hrec
  have hnotwh : ∀ r ∈ rows, isWebhookModeRow r = false := by
    intro r hr
    obtain ⟨run, sid, elapsed, cmd, hmem⟩ := hrec r hr
    have hm : r.event = { sessionID := sid
                          commandName := cmd.name
                          duration := elapsed
                          success := (if cmd.IsContainerized then
                              ContainerExecutor.Execute run cmd
                            else LocalExecutor.Execute run cmd).err.isNone
                          outputSize := (if cmd.IsContainerized then
                              ContainerExecutor.Execute run cmd
                            else LocalExecutor.Execute run cmd).output.utf8ByteSize
                          executionMode := getExecutionMode cmd
                          errorMessage := getErrorString (if cmd.IsContainerized then
                              ContainerExecutor.Execute run cmd
                            else LocalExecutor.Execute run cmd).err } := by
      simpa [Service.Execute] using hmem
    unfold isWebhookModeRow
    rw [hm]
    exact beq_eq_false_iff_ne.mpr (hmode cmd).2
  have hf1 : rows.filter (fun r => inWindow now days r && isWebhookModeRow r) = [] := by
    rw [List.filter_eq_nil_iff]
    intro r hr
    simp [hnotwh r hr]
  have hf2 : rows.filter (fun r => inWindow now days r && isWebhookModeRow r
      && inLastDay now r && !r.event.success) = [] := by
    rw [List.filter_eq_nil_iff]
    intro r hr
    simp [hnotwh r hr]
  refine ⟨?_, ?_, ?_⟩ <;>
    simp [GetWebhookStats, hf1, hf2, groupByName, namesOf, sortByCountDesc]

/-- Claim C8 witness: a table holding one dispatcher-recorded local event
contributes nothing to the webhook statistics. -/
theorem dispatcher_events_never_webhook_mode_witness :
    (GetWebhookStats 100 7 rows8).totalCalls = 0 ∧
    (GetWebhookStats 100 7 rows8).topWebhooks = [] ∧
    (GetWebhookStats 100 7 rows8).errorsLast24h = 0 := by
  apply dispatcher_events_never_webhook_mode.2 100 7 rows8
  intro r hr
  refine ⟨run0, "s", 5, cmdLocal0, ?_⟩
  have hre : r = { timestamp := 50, event := ev8 } := by
    simpa [rows8] using hr
  rw [hre]
  decide

/-- Summing the success indicator column counts the successful rows. -/
theorem successIndicators_sum (rows : List CommandEvent) :
    (successIndicators rows).sum = ((rows.filter (fun e => e.success)).length : ℚ) := by
  induction rows with
  | nil => simp [successIndicators]
  | cons e es ih =>
    have ih' : (List.map (fun e => if e.success = true then (1 : ℚ) else 0) es).sum
        = ((List.filter (fun e => e.success) es).length : ℚ) := by
      simpa [successIndicators] using ih
    by_cases h : e.success
    · simp [successIndicators, List.filter_cons, h, ih']
      ring
    · simp [successIndicators, List.filter_cons, h, ih']

/-- Inserting into a count-descending list yields an element of the
original list or the inserted one. -/
theorem mem_insertByCount (c : CommandSummary) :
    ∀ (l : List CommandSummary) (x : CommandSummary),
      x ∈ insertByCount c l → x = c ∨ x ∈ l
  | [], x, hx => by
    rw [insertByCount] at hx
    exact Or.inl (List.mem_singleton.mp hx)
  | y :: ys, x, hx => by
    by_cases h : y.count < c.count
    · rw [insertByCount, if_pos h] at hx
      rcases List.mem_cons.mp hx with h1 | h1
      · exact Or.inl h1
      · exact Or.inr h1
    · rw [insertByCount, if_neg h] at hx
      rcases List.mem_cons.mp hx with h1 | h1
      · exact Or.inr (h1 ▸ List.mem_cons_self y ys)
      · rcases mem_insertByCount c ys x h1 with h2 | h2
        · exact Or.inl h2
        · exact Or.inr (List.mem_cons_of_mem y h2)

/-- Insertion keeps the count-descending order. -/
theorem pairwise_insertByCount (c : CommandSummary) :
    ∀ l : List CommandSummary, l.Pairwise (fun a b => b.count ≤ a.count) →
      (insertByCount c l).Pairwise (fun a b => b.count ≤ a.count)
  | [], _ => by
    rw [insertByCount]
    exact List.pairwise_singleton _ c
  | y :: ys, h => by
    rcases List.pairwise_cons.mp h with ⟨hy, hys⟩
    by_cases hc : y.count < c.count
    · rw [insertByCount, if_pos hc]
      refine List.pairwise_cons.mpr ⟨?_, h⟩
      intro z hz
      rcases List.mem_cons.mp hz with h1 | h1
      · rw [h1]; omega
      · have := hy z h1; omega
    · rw [insertByCount, if_neg hc]
      refine List.pairwise_cons.mpr ⟨?_, pairwise_insertByCount c ys hys⟩
      intro z hz
      rcases mem_insertByCount c ys z hz with h1 | h1
      · rw [h1]; omega
      · exact hy z h1

/-- The count-descending sort is sorted by count descending. -/
theorem pairwise_sortByCountDesc :
    ∀ l : List CommandSummary,
      (sortByCountDesc l).Pairwise (fun a b => b.count ≤ a.count)
  | [] => by
    rw [sortByCountDesc]
    exact List.Pairwise.nil
  | x :: xs => by
    rw [sortByCountDesc]
    exact pairwise_insertByCount x _ (pairwise_sortByCountDesc xs)

/-- Claim C10: over a window holding N events of which M succeed,
GetStats reports a success rate of exactly 100*M/N, and its TopCommands
list is ordered by per-command event count descending. -/
theorem stats_success_rate_and_order (now days : Int) (rows : List StoredEvent)
    (hN : ((rows.filter (inWindow now days)).map StoredEvent.event).length ≠ 0) :
    (GetStats now days rows).successRate =
      100 * ((((rows.filter (inWindow now days)).map StoredEvent.event).filter
        (fun e => e.success)).length : ℚ) /
      (((rows.filter (inWindow now days)).map StoredEvent.event).length : ℚ) ∧
    (GetStats now days rows).topCommands.Pairwise (fun a b => b.count ≤ a.count) := by
  have key : ∀ u : List CommandEvent, u.length ≠ 0 →
      100 * sqlAvg (successIndicators u) =
        100 * ((u.filter (fun e => e.success)).length : ℚ) / (u.length : ℚ) := by
    intro u hu
    have hne : ¬((successIndicators u).length = 0) := by
      simpa [successIndicators] using hu
    rw [sqlAvg, if_neg hne, successIndicators_sum u]
    have hlen : (successIndicators u).length = u.length := by simp [successIndicators]
    rw [hlen, mul_div_assoc]
  constructor
  · exact key _ hN
  · exact (pairwise_sortByCountDesc _).sublist (List.take_sublist 10 _)

/-- Claim C10 witness: three in-window rows, two successes, give success
rate 100*2/3 and a top-commands list sorted by count descending. -/
theorem stats_success_rate_and_order_witness :
    (GetStats 100 7 rows10).successRate =
      100 * ((((rows10.filter (inWindow 100 7)).map StoredEvent.event).filter
        (fun e => e.success)).length : ℚ) /
      (((rows10.filter (inWindow 100 7)).map StoredEvent.event).length : ℚ) ∧
    (GetStats 100 7 rows10).topCommands.Pairwise (fun a b => b.count ≤ a.count) :=
  stats_success_rate_and_order 100 7 rows10 (by decide)
